import Mathlib

/-!
Verification development for the `GraphWorkspace` component of
tensorrt-laboratory (`tensorrt/src/graph_workspace.cc`).

The workspace registers models at given batch sizes, plans two device
memory high-water marks, then `BuildGraphs` allocates the device memory
stack and the activation space and captures one graph executor per
registered `(name, batch_size)` key.  Lookups serve from the caches.

Machine integers (`size_t`, `uint32_t`) are modelled as `Nat`; none of the
verified properties depends on wrap-around.  `std::map` is modelled as an
association list kept in key order by `mapSet` (insert-or-assign) and read
by `mapFind`.  Fatal errors (`LOG(FATAL)` / `CHECK`) are modelled by a
`FatalError` value returned together with the workspace state at the point
of the abort; the recoverable `std::runtime_error` throws of the lookup
accessors are modelled by `Except RecoverableError`.
-/

/-- Helper from the anonymous namespace of `graph_workspace.cc`: round
`size` up to a multiple of `alignment`. -/
def Align (size alignment : Nat) : Nat :=
  let remainder := size % alignment
  if remainder = 0 then size else size + alignment - remainder

/-- Modelled from the spec: `DeviceInfo::Alignment()` lives in the cuda
support library, which is not part of the sampled source; the spec only
calls it "an addressing alignment".  It is modelled as an arbitrary fixed
constant; no verified property depends on its value. -/
def DeviceInfo.Alignment : Nat := 256

/-- Modelled from the spec: the external model descriptor.  It exposes the
static sizing facts consumed by the workspace (`GetMaxBatchSize`,
`GetBindingMemorySize`, `GetBindingsCount`, per-binding
`bytesPerBatchItem`, `GetActivationsMemorySize`, `GetWeightsMemorySize`)
and carries the display name set by `SetName`.  The binding descriptors
are the list of per-batch-item byte costs, indexed by slot. -/
structure Model where
  maxBatchSize : Nat
  bindingMemorySize : Nat
  activationsMemorySize : Nat
  weightsMemorySize : Nat
  bindingBytesPerBatchItem : List Nat
  name : Option String := none
deriving DecidableEq

def Model.GetMaxBatchSize (m : Model) : Nat := m.maxBatchSize

def Model.GetBindingsCount (m : Model) : Nat := m.bindingBytesPerBatchItem.length

/-- Modelled from the spec: the per-model execution context produced by
`Model::CreateExecutionContext`.  The workspace only ever sets its device
scratch memory pointer, so that is the only observable state. -/
structure ExecutionContext where
  deviceMemory : Option Nat
deriving DecidableEq

def Model.CreateExecutionContext (_ : Model) : ExecutionContext :=
  { deviceMemory := none }

/-- Modelled from the spec: `MemoryStack` (core memory library, not in the
sampled source).  A bump allocator over one device buffer: `Allocate`
returns the next aligned sub-range and advances an internal offset;
`Reset` rewinds the offset to zero. -/
structure MemoryStack where
  capacity : Nat
  offset : Nat
deriving DecidableEq

def MemoryStack.Allocate (st : MemoryStack) (size : Nat) : Nat × MemoryStack :=
  let ptr := Align st.offset DeviceInfo.Alignment
  (ptr, { st with offset := ptr + size })

def MemoryStack.Reset (st : MemoryStack) : MemoryStack :=
  { st with offset := 0 }

/-- Composite key of the graph caches: `(model name, batch size)`. -/
abbrev ModelKey := String × Nat

def MakeKey (name : String) (batchSize : Nat) : ModelKey := (name, batchSize)

/-- Strict order on characters by code point. -/
def charLtB (a b : Char) : Bool := a.toNat < b.toNat

/-- Strict lexicographic order on character lists. -/
def strDataLtB : List Char → List Char → Bool
  | [], [] => false
  | [], _ :: _ => true
  | _ :: _, [] => false
  | a :: as, b :: bs => charLtB a b || (a = b && strDataLtB as bs)

/-- Strict lexicographic order on names used to keep the name-keyed
`std::map`s sorted. -/
def strLtB (a b : String) : Bool := strDataLtB a.data b.data

/-- Strict lexicographic order on `ModelKey` (name, then batch size),
matching `std::map<ModelKey, ...>` iteration order. -/
def keyLtB (a b : ModelKey) : Bool :=
  strLtB a.1 b.1 || (a.1 = b.1 && decide (a.2 < b.2))

/-- Lookup in an association-list map (`std::map::find`). -/
def mapFind {κ α : Type} [DecidableEq κ] (k : κ) : List (κ × α) → Option α
  | [] => none
  | (k', v') :: rest => if k = k' then some v' else mapFind k rest

/-- Insert-or-assign in an association-list map (`std::map::operator[]`),
keeping entries sorted by `lt`. -/
def mapSet {κ α : Type} [DecidableEq κ] (lt : κ → κ → Bool) (k : κ) (v : α) :
    List (κ × α) → List (κ × α)
  | [] => [(k, v)]
  | (k', v') :: rest =>
    if k = k' then (k, v) :: rest
    else if lt k k' then (k, v) :: (k', v') :: rest
    else (k', v') :: mapSet lt k v rest

/-- A captured CUDA graph: the record produced by stream capture of
`ctx->enqueue(batch_size, bindings, stream, nullptr)`.  The binding
pointers and the activation scratch base are baked in at capture time.
`cudaGraphInstantiate` turns the same record into the launchable executor,
so graphs and graph executors share this representation. -/
structure CapturedGraph where
  name : String
  batchSize : Nat
  bindings : List Nat
  activationBase : Nat
deriving DecidableEq

/-- The state of `trtlab::TensorRT::GraphWorkspace`.  Device pointers are
modelled as offsets into the workspace's single device allocations
(activation base = 0).  `bindingsStack` / `activationSpace` are `none`
until `BuildGraphs` allocates them, mirroring the null `unique_ptr`s. -/
structure GraphWorkspace where
  deviceStackSize : Nat
  activationsSize : Nat
  models : List (String × Model)
  executionContexts : List (String × ExecutionContext)
  modelsAndBatchSize : List (ModelKey × Model)
  bindingsStack : Option MemoryStack
  activationSpace : Option Nat
  deviceBindings : List (String × List Nat)
  graphs : List (ModelKey × CapturedGraph)
  graphExecutors : List (ModelKey × CapturedGraph)
deriving DecidableEq

/-- The freshly constructed workspace: zero sizing marks, empty maps, no
device allocations. -/
def GraphWorkspace.init : GraphWorkspace :=
  { deviceStackSize := 0
    activationsSize := 0
    models := []
    executionContexts := []
    modelsAndBatchSize := []
    bindingsStack := none
    activationSpace := none
    deviceBindings := []
    graphs := []
    graphExecutors := [] }

/-- Fatal errors: `LOG(FATAL)` / failed `CHECK` in `RegisterModel`. -/
inductive FatalError where
  | registrationAfterGraphCreation
  | batchSizeExceedsMaxBatchSize
  | modelCollision (name : String) (batchSize : Nat)
deriving DecidableEq

/-- Recoverable errors: the `std::runtime_error` throws of `GetGraph` and
`DeviceBindingsByName`. -/
inductive RecoverableError where
  | noGraphExecutor (name : String)
  | noDeviceBindings (name : String)
deriving DecidableEq

/-- `GraphWorkspace::RegisterModel(name, model, batch_size)`.  The result
pairs an optional fatal error with the workspace state at the point the
call returned or aborted; all fatal checks in the source precede every
mutation, which the embedding reproduces by aborting with the incoming
state. -/
def GraphWorkspace.RegisterModel (ws : GraphWorkspace) (name : String) (model : Model)
    (batchSize : Nat) : Option FatalError × GraphWorkspace :=
  if ws.bindingsStack.isSome || ws.activationSpace.isSome then
    (some FatalError.registrationAfterGraphCreation, ws)
  else if ¬ batchSize ≤ model.GetMaxBatchSize then
    (some FatalError.batchSizeExceedsMaxBatchSize, ws)
  else
    let key := MakeKey name batchSize
    if (mapFind key ws.modelsAndBatchSize).isSome then
      (some (FatalError.modelCollision name batchSize), ws)
    else
      let bindings :=
        model.bindingMemorySize + model.GetBindingsCount * DeviceInfo.Alignment
      let activations := Align model.activationsMemorySize (128 * 1024)
      let device := Align bindings (128 * 1024)
      let model' := { model with name := some name }
      (none,
       { ws with
         deviceStackSize := max ws.deviceStackSize device
         activationsSize := max ws.activationsSize activations
         models := mapSet strLtB name model' ws.models
         executionContexts :=
           mapSet strLtB name model'.CreateExecutionContext ws.executionContexts
         modelsAndBatchSize := mapSet keyLtB key model' ws.modelsAndBatchSize })

/-- Push one binding pointer per binding slot onto the device memory
stack, each sized `max_batch_size * bytesPerBatchItem` (the loop at lines
159-164 of `BuildGraphs`). -/
def allocBindings (st : MemoryStack) (maxBatchSize : Nat) :
    List Nat → List Nat × MemoryStack
  | [] => ([], st)
  | bytesPerBatchItem :: rest =>
    let a := st.Allocate (maxBatchSize * bytesPerBatchItem)
    let r := allocBindings a.2 maxBatchSize rest
    (a.1 :: r.1, r.2)

/-- One iteration of the `BuildGraphs` loop for an entry of
`m_ModelsAndBatchSize`: point the model's execution context at the shared
activation base, resolve (allocating once per name) the device bindings,
capture the graph, reset the stack, and instantiate the executor. -/
def buildStack (acc : GraphWorkspace) : MemoryStack :=
  acc.bindingsStack.getD { capacity := acc.deviceStackSize, offset := 0 }

/-- The graph captured for `item` against the given binding pointers: the
record of `ctx->enqueue(batch_size, bindings, stream, nullptr)` between
`cudaStreamBeginCapture` and `cudaStreamEndCapture`. -/
def captured (item : ModelKey × Model) (bindings : List Nat) : CapturedGraph :=
  { name := item.1.1, batchSize := item.1.2, bindings := bindings, activationBase := 0 }

/-- Binding allocation for one model from the current device memory stack
(loop at lines 157-164 of `BuildGraphs`). -/
def allocBindingsFor (acc : GraphWorkspace) (item : ModelKey × Model) :
    List Nat × MemoryStack :=
  allocBindings (buildStack acc) item.2.GetMaxBatchSize item.2.bindingBytesPerBatchItem

def BuildOne (acc : GraphWorkspace) (item : ModelKey × Model) : GraphWorkspace :=
  match mapFind item.1.1 acc.deviceBindings with
  | none =>
    { acc with
      executionContexts :=
        mapSet strLtB item.1.1 { deviceMemory := some 0 } acc.executionContexts
      deviceBindings :=
        mapSet strLtB item.1.1 (allocBindingsFor acc item).1 acc.deviceBindings
      graphs := mapSet keyLtB item.1 (captured item (allocBindingsFor acc item).1) acc.graphs
      bindingsStack := some (allocBindingsFor acc item).2.Reset
      graphExecutors :=
        mapSet keyLtB item.1 (captured item (allocBindingsFor acc item).1) acc.graphExecutors }
  | some bindings =>
    { acc with
      executionContexts :=
        mapSet strLtB item.1.1 { deviceMemory := some 0 } acc.executionContexts
      graphs := mapSet keyLtB item.1 (captured item bindings) acc.graphs
      bindingsStack := some (buildStack acc).Reset
      graphExecutors := mapSet keyLtB item.1 (captured item bindings) acc.graphExecutors }

/-- `GraphWorkspace::BuildGraphs()`: early return when no model is
registered; otherwise allocate the device memory stack and the activation
space from the frozen sizing marks and build one graph per registered
`(name, batch_size)` entry, in `std::map` key order. -/
def GraphWorkspace.BuildGraphs (ws : GraphWorkspace) : GraphWorkspace :=
  if ws.models.isEmpty then
    ws
  else
    ws.modelsAndBatchSize.foldl BuildOne
      { ws with
        bindingsStack := some { capacity := ws.deviceStackSize, offset := 0 }
        activationSpace := some ws.activationsSize }

/-- `GraphWorkspace::IsModelRegistered(name)`.  Paired with the resulting
workspace state to make the absence of mutation a provable statement. -/
def GraphWorkspace.IsModelRegistered (ws : GraphWorkspace) (name : String) :
    Bool × GraphWorkspace :=
  ((mapFind name ws.models).isSome, ws)

/-- `GraphWorkspace::IsGraphAvailable(name, batch_size)`. -/
def GraphWorkspace.IsGraphAvailable (ws : GraphWorkspace) (name : String)
    (batchSize : Nat) : Bool × GraphWorkspace :=
  ((mapFind (MakeKey name batchSize) ws.graphExecutors).isSome, ws)

/-- `GraphWorkspace::GetGraph(name, batch_size)`: the cached executor, or
a recoverable not-found error. -/
def GraphWorkspace.GetGraph (ws : GraphWorkspace) (name : String) (batchSize : Nat) :
    Except RecoverableError CapturedGraph × GraphWorkspace :=
  match mapFind (MakeKey name batchSize) ws.graphExecutors with
  | none => (Except.error (RecoverableError.noGraphExecutor name), ws)
  | some g => (Except.ok g, ws)

/-- `GraphWorkspace::DeviceBindingsByName(name)`: the cached binding
pointers, or a recoverable not-found error. -/
def GraphWorkspace.DeviceBindingsByName (ws : GraphWorkspace) (name : String) :
    Except RecoverableError (List Nat) × GraphWorkspace :=
  match mapFind name ws.deviceBindings with
  | none => (Except.error (RecoverableError.noDeviceBindings name), ws)
  | some b => (Except.ok b, ws)

/-- Workspaces reachable during the registration phase: the initial
workspace followed by any number of successful `RegisterModel` calls. -/
inductive Reachable : GraphWorkspace → Prop where
  | init : Reachable GraphWorkspace.init
  | register (ws : GraphWorkspace) (name : String) (model : Model) (batchSize : Nat)
      (ws' : GraphWorkspace) :
      Reachable ws →
      GraphWorkspace.RegisterModel ws name model batchSize = (none, ws') →
      Reachable ws'

/-- Per-model binding-stack requirement as computed inline in
`RegisterModel`: total binding memory plus one `DeviceInfo::Alignment` pad
per binding slot, rounded up to the coarse 128 KiB boundary. -/
def bindingsRequirement (m : Model) : Nat :=
  Align (m.bindingMemorySize + m.GetBindingsCount * DeviceInfo.Alignment) (128 * 1024)

/-- Per-model activation requirement as computed inline in
`RegisterModel`: activation memory rounded up to the 128 KiB boundary. -/
def activationsRequirement (m : Model) : Nat :=
  Align m.activationsMemorySize (128 * 1024)

/-- Maximum of a list of sizes, `0` when empty (matching the initial
value of the two high-water marks). -/
def listMaxN (l : List Nat) : Nat := l.foldr max 0

/-- Sample model for concrete witnesses (the spec's scenario model: max
batch 8, one binding of 4 bytes per item, 1000 bytes of activations). -/
def modelA : Model :=
  { maxBatchSize := 8
    bindingMemorySize := 4
    activationsMemorySize := 1000
    weightsMemorySize := 0
    bindingBytesPerBatchItem := [4] }

/-- Second sample model for concrete witnesses. -/
def modelB : Model :=
  { maxBatchSize := 1
    bindingMemorySize := 4
    activationsMemorySize := 16
    weightsMemorySize := 0
    bindingBytesPerBatchItem := [4] }

/-- Workspace with `modelA` registered under name `"A"` at batch size 4. -/
def wsA : GraphWorkspace := (GraphWorkspace.init.RegisterModel "A" modelA 4).2

/-- Workspace with `modelA` registered under name `"A"` at batch sizes 4
and 8. -/
def wsA2 : GraphWorkspace := (wsA.RegisterModel "A" modelA 8).2

/-- Copy of `modelA` carrying the display name assigned by `SetName`
during registration; this is the value stored in the registration maps. -/
def modelA2 : Model := { modelA with name := some "A" }

lemma mapFind_mapSet_self {κ α : Type} [DecidableEq κ] (lt : κ → κ → Bool) (k : κ) (v : α)
    (l : List (κ × α)) : mapFind k (mapSet lt k v l) = some v := by
  induction l with
  | nil => simp [mapSet, mapFind]
  | cons hd tl ih =>
    obtain ⟨k', v'⟩ := hd
    by_cases hk : k = k'
    · subst hk
      simp [mapSet, mapFind]
    · simp only [mapSet, if_neg hk]
      by_cases hlt : lt k k' = true
      · simp [hlt, mapFind]
      · simp [hlt, mapFind, if_neg hk, ih]

lemma mapFind_mapSet_ne {κ α : Type} [DecidableEq κ] (lt : κ → κ → Bool) {k k' : κ} (v : α)
    (l : List (κ × α)) (h : k ≠ k') : mapFind k (mapSet lt k' v l) = mapFind k l := by
  induction l with
  | nil => simp [mapSet, mapFind, h]
  | cons hd tl ih =>
    obtain ⟨k'', v''⟩ := hd
    by_cases h2 : k' = k''
    · subst h2
      simp [mapSet, mapFind, if_neg h]
    · simp only [mapSet, if_neg h2]
      by_cases hlt : lt k' k'' = true
      · simp [hlt, mapFind, if_neg h]
      · simp [hlt, mapFind, ih]

lemma mapFind_isSome_iff {κ α : Type} [DecidableEq κ] (k : κ) (l : List (κ × α)) :
    (mapFind k l).isSome ↔ k ∈ l.map Prod.fst := by
  induction l with
  | nil => simp [mapFind]
  | cons hd tl ih =>
    obtain ⟨k', v'⟩ := hd
    by_cases h : k = k'
    · subst h
      simp [mapFind]
    · simp [mapFind, h, ih]

lemma mem_mapSet {κ α : Type} [DecidableEq κ] (lt : κ → κ → Bool) {p : κ × α} {k : κ} {v : α}
    {l : List (κ × α)} (h : p ∈ mapSet lt k v l) : p = (k, v) ∨ p ∈ l := by
  induction l with
  | nil => simpa [mapSet] using h
  | cons hd tl ih =>
    obtain ⟨k', v'⟩ := hd
    by_cases h1 : k = k'
    · subst h1
      simp only [mapSet, if_pos rfl] at h
      rcases List.mem_cons.mp h with he | hm
      · exact Or.inl he
      · exact Or.inr (List.mem_cons_of_mem _ hm)
    · simp only [mapSet, if_neg h1] at h
      by_cases hlt : lt k k' = true
      · rw [if_pos hlt] at h
        rcases List.mem_cons.mp h with he | hm
        · exact Or.inl he
        · exact Or.inr hm
      · rw [if_neg hlt] at h
        rcases List.mem_cons.mp h with he | hm
        · exact Or.inr (he ▸ List.mem_cons_self _ _)
        · rcases ih hm with he2 | hm2
          · exact Or.inl he2
          · exact Or.inr (List.mem_cons_of_mem _ hm2)

lemma listMaxN_cons (a : Nat) (l : List Nat) : listMaxN (a :: l) = max a (listMaxN l) := rfl

lemma listMaxN_map_mapSet {κ α : Type} [DecidableEq κ] (lt : κ → κ → Bool) (k : κ) (v : α)
    (l : List (κ × α)) (f : κ × α → Nat) (h : mapFind k l = none) :
    listMaxN ((mapSet lt k v l).map f) = max (f (k, v)) (listMaxN (l.map f)) := by
  induction l with
  | nil => simp [mapSet, listMaxN]
  | cons hd tl ih =>
    obtain ⟨k', v'⟩ := hd
    have hk : k ≠ k' := by
      intro e
      subst e
      simp [mapFind] at h
    have htl : mapFind k tl = none := by
      simpa [mapFind, if_neg hk] using h
    simp only [mapSet, if_neg hk]
    by_cases hlt : lt k k' = true
    · simp [hlt, listMaxN]
    · rw [if_neg hlt, List.map_cons, List.map_cons, listMaxN_cons, listMaxN_cons, ih htl,
        Nat.max_left_comm]

lemma register_ok {ws : GraphWorkspace} {name : String} {model : Model} {batchSize : Nat}
    {ws' : GraphWorkspace} (h : ws.RegisterModel name model batchSize = (none, ws')) :
    ws.bindingsStack = none ∧ ws.activationSpace = none ∧
    batchSize ≤ model.GetMaxBatchSize ∧
    mapFind (MakeKey name batchSize) ws.modelsAndBatchSize = none ∧
    ws' =
      { ws with
        deviceStackSize := max ws.deviceStackSize (bindingsRequirement model)
        activationsSize := max ws.activationsSize (activationsRequirement model)
        models := mapSet strLtB name { model with name := some name } ws.models
        executionContexts :=
          mapSet strLtB name
            (Model.CreateExecutionContext { model with name := some name })
            ws.executionContexts
        modelsAndBatchSize :=
          mapSet keyLtB (MakeKey name batchSize) { model with name := some name }
            ws.modelsAndBatchSize } := by
  unfold GraphWorkspace.RegisterModel at h
  split_ifs at h with h1 h2
  · simp at h
  · by_cases h3 : (mapFind (MakeKey name batchSize) ws.modelsAndBatchSize).isSome = true
    · rw [if_pos h3] at h
      simp at h
    · rw [if_neg h3] at h
      rw [Bool.or_eq_true, not_or] at h1
      simp only [Prod.mk.injEq, true_and] at h
      refine ⟨Option.not_isSome_iff_eq_none.mp h1.1, Option.not_isSome_iff_eq_none.mp h1.2,
        h2, Option.not_isSome_iff_eq_none.mp h3, ?_⟩
      rw [← h]
      simp [bindingsRequirement, activationsRequirement]
  · simp at h

lemma reachable_state {ws : GraphWorkspace} (h : Reachable ws) :
    ws.bindingsStack = none ∧ ws.activationSpace = none ∧ ws.deviceBindings = [] ∧
    ws.graphs = [] ∧ ws.graphExecutors = [] ∧
    ∀ p ∈ ws.modelsAndBatchSize, (mapFind p.1.1 ws.models).isSome := by
  induction h with
  | init => exact ⟨rfl, rfl, rfl, rfl, rfl, by intro p hp; simp [GraphWorkspace.init] at hp⟩
  | register ws name model batchSize ws' hreach hreg ih =>
    obtain ⟨hbs, has, hdb, hg, hge, hmm⟩ := ih
    obtain ⟨-, -, -, -, hrec⟩ := register_ok hreg
    subst hrec
    refine ⟨hbs, has, hdb, hg, hge, ?_⟩
    intro p hp
    rcases mem_mapSet _ hp with he | hmem
    · subst he
      simp only [MakeKey]
      rw [mapFind_mapSet_self]
      rfl
    · by_cases hn : p.1.1 = name
      · simp only [hn]
        rw [mapFind_mapSet_self]
        rfl
      · simp only []
        rw [mapFind_mapSet_ne _ _ _ hn]
        exact hmm p hmem

lemma reachable_sizes {ws : GraphWorkspace} (h : Reachable ws) :
    ws.deviceStackSize =
      listMaxN (ws.modelsAndBatchSize.map fun p => bindingsRequirement p.2) ∧
    ws.activationsSize =
      listMaxN (ws.modelsAndBatchSize.map fun p => activationsRequirement p.2) := by
  induction h with
  | init => exact ⟨rfl, rfl⟩
  | register ws name model batchSize ws' hreach hreg ih =>
    obtain ⟨ih1, ih2⟩ := ih
    obtain ⟨-, -, -, hfind, hrec⟩ := register_ok hreg
    subst hrec
    constructor
    · simp only []
      rw [listMaxN_map_mapSet _ _ _ _ _ hfind, ih1, Nat.max_comm]
      simp [bindingsRequirement, Model.GetBindingsCount]
    · simp only []
      rw [listMaxN_map_mapSet _ _ _ _ _ hfind, ih2, Nat.max_comm]
      simp [activationsRequirement]

lemma register_monotone (ws : GraphWorkspace) (name : String) (model : Model)
    (batchSize : Nat) :
    ws.deviceStackSize ≤ (ws.RegisterModel name model batchSize).2.deviceStackSize ∧
    ws.activationsSize ≤ (ws.RegisterModel name model batchSize).2.activationsSize := by
  unfold GraphWorkspace.RegisterModel
  split_ifs
  · exact ⟨le_refl _, le_refl _⟩
  · by_cases h3 : (mapFind (MakeKey name batchSize) ws.modelsAndBatchSize).isSome = true
    · rw [if_pos h3]
      exact ⟨le_refl _, le_refl _⟩
    · rw [if_neg h3]
      exact ⟨Nat.le_max_left _ _, Nat.le_max_left _ _⟩
  · exact ⟨le_refl _, le_refl _⟩

lemma allocBindings_capacity (st : MemoryStack) (maxBatchSize : Nat) (l : List Nat) :
    (allocBindings st maxBatchSize l).2.capacity = st.capacity := by
  induction l generalizing st with
  | nil => rfl
  | cons c rest ih =>
    simp only [allocBindings]
    rw [ih]
    rfl

lemma buildOne_frame (acc : GraphWorkspace) (item : ModelKey × Model) :
    (BuildOne acc item).deviceStackSize = acc.deviceStackSize ∧
    (BuildOne acc item).activationsSize = acc.activationsSize ∧
    (BuildOne acc item).models = acc.models ∧
    (BuildOne acc item).modelsAndBatchSize = acc.modelsAndBatchSize ∧
    (BuildOne acc item).activationSpace = acc.activationSpace := by
  unfold BuildOne
  cases hfind : mapFind item.1.1 acc.deviceBindings <;> simp [hfind]

lemma foldl_buildOne_frame (l : List (ModelKey × Model)) (acc : GraphWorkspace) :
    (l.foldl BuildOne acc).deviceStackSize = acc.deviceStackSize ∧
    (l.foldl BuildOne acc).activationsSize = acc.activationsSize ∧
    (l.foldl BuildOne acc).models = acc.models ∧
    (l.foldl BuildOne acc).modelsAndBatchSize = acc.modelsAndBatchSize ∧
    (l.foldl BuildOne acc).activationSpace = acc.activationSpace := by
  induction l generalizing acc with
  | nil => exact ⟨rfl, rfl, rfl, rfl, rfl⟩
  | cons a l ih =>
    simp only [List.foldl_cons]
    obtain ⟨e1, e2, e3, e4, e5⟩ := ih (BuildOne acc a)
    obtain ⟨f1, f2, f3, f4, f5⟩ := buildOne_frame acc a
    exact ⟨e1.trans f1, e2.trans f2, e3.trans f3, e4.trans f4, e5.trans f5⟩

lemma buildOne_graphExecutors (acc : GraphWorkspace) (item : ModelKey × Model) :
    ∃ g, (BuildOne acc item).graphExecutors = mapSet keyLtB item.1 g acc.graphExecutors := by
  unfold BuildOne
  cases hfind : mapFind item.1.1 acc.deviceBindings
  · exact ⟨_, rfl⟩
  · exact ⟨_, rfl⟩

lemma foldl_graphExecutors_isSome (l : List (ModelKey × Model)) (acc : GraphWorkspace)
    (k : ModelKey) :
    (mapFind k (l.foldl BuildOne acc).graphExecutors).isSome ↔
      (mapFind k acc.graphExecutors).isSome ∨ k ∈ l.map Prod.fst := by
  induction l generalizing acc with
  | nil => simp
  | cons a l ih =>
    simp only [List.foldl_cons, List.map_cons, List.mem_cons]
    rw [ih]
    obtain ⟨g, hg⟩ := buildOne_graphExecutors acc a
    rw [hg]
    by_cases hk : k = a.1
    · subst hk
      rw [mapFind_mapSet_self]
      simp
    · rw [mapFind_mapSet_ne _ _ _ hk]
      tauto

lemma buildOne_stack {acc : GraphWorkspace} {c : Nat} (item : ModelKey × Model)
    (h : acc.bindingsStack = some { capacity := c, offset := 0 }) :
    (BuildOne acc item).bindingsStack = some { capacity := c, offset := 0 } := by
  have hstack : buildStack acc = { capacity := c, offset := 0 } := by
    rw [buildStack, h]
    rfl
  unfold BuildOne
  cases hfind : mapFind item.1.1 acc.deviceBindings
  · simp only []
    rw [MemoryStack.Reset]
    have : (allocBindingsFor acc item).2.capacity = c := by
      rw [allocBindingsFor, allocBindings_capacity, hstack]
    rw [this]
  · simp only []
    rw [MemoryStack.Reset, hstack]

lemma buildOne_deviceBindings_none {acc : GraphWorkspace} {c : Nat} (item : ModelKey × Model)
    (hstack : acc.bindingsStack = some { capacity := c, offset := 0 })
    (hfind : mapFind item.1.1 acc.deviceBindings = none) :
    (BuildOne acc item).deviceBindings =
      mapSet strLtB item.1.1
        (allocBindings { capacity := c, offset := 0 } item.2.GetMaxBatchSize
          item.2.bindingBytesPerBatchItem).1
        acc.deviceBindings := by
  have hb : buildStack acc = { capacity := c, offset := 0 } := by
    rw [buildStack, hstack]
    rfl
  unfold BuildOne
  rw [hfind]
  simp only [allocBindingsFor, hb]

lemma buildOne_deviceBindings_some {acc : GraphWorkspace} {b : List Nat}
    (item : ModelKey × Model) (hfind : mapFind item.1.1 acc.deviceBindings = some b) :
    (BuildOne acc item).deviceBindings = acc.deviceBindings := by
  unfold BuildOne
  rw [hfind]

lemma foldl_deviceBindings {l : List (ModelKey × Model)} {acc : GraphWorkspace} {c : Nat}
    {n : String} {m : Model}
    (hstack : acc.bindingsStack = some { capacity := c, offset := 0 })
    (hmodels : ∀ p ∈ l, p.1.1 = n → p.2 = m)
    (hcase :
      mapFind n acc.deviceBindings =
          some (allocBindings { capacity := c, offset := 0 } m.GetMaxBatchSize
            m.bindingBytesPerBatchItem).1 ∨
        (mapFind n acc.deviceBindings = none ∧ n ∈ l.map fun p => p.1.1)) :
    mapFind n (l.foldl BuildOne acc).deviceBindings =
      some (allocBindings { capacity := c, offset := 0 } m.GetMaxBatchSize
        m.bindingBytesPerBatchItem).1 := by
  induction l generalizing acc with
  | nil =>
    rcases hcase with h | ⟨-, h⟩
    · simpa using h
    · simp at h
  | cons a l ih =>
    simp only [List.foldl_cons]
    apply ih (buildOne_stack a hstack) fun p hp hpn => hmodels p (List.mem_cons_of_mem _ hp) hpn
    rcases hcase with hsome | ⟨hnone, hmem⟩
    · left
      cases hfind : mapFind a.1.1 acc.deviceBindings with
      | none =>
        have hne : n ≠ a.1.1 := by
          intro e
          rw [← e] at hfind
          rw [hfind] at hsome
          cases hsome
        rw [buildOne_deviceBindings_none a hstack hfind, mapFind_mapSet_ne _ _ _ hne]
        exact hsome
      | some b =>
        rw [buildOne_deviceBindings_some a hfind]
        exact hsome
    · by_cases hn : a.1.1 = n
      · left
        have hfind : mapFind a.1.1 acc.deviceBindings = none := by
          rw [hn]
          exact hnone
        rw [buildOne_deviceBindings_none a hstack hfind, hn,
          hmodels a (List.mem_cons_self _ _) hn, mapFind_mapSet_self]
      · right
        refine ⟨?_, ?_⟩
        · cases hfind : mapFind a.1.1 acc.deviceBindings with
          | none =>
            rw [buildOne_deviceBindings_none a hstack hfind,
              mapFind_mapSet_ne _ _ _ fun e => hn e.symm]
            exact hnone
          | some b =>
            rw [buildOne_deviceBindings_some a hfind]
            exact hnone
        · simp only [List.map_cons, List.mem_cons] at hmem
          rcases hmem with e | hm
          · exact absurd e.symm hn
          · exact hm

lemma buildGraphs_of_ne_nil {ws : GraphWorkspace} (h : ws.models.isEmpty = false) :
    ws.BuildGraphs =
      ws.modelsAndBatchSize.foldl BuildOne
        { ws with
          bindingsStack := some { capacity := ws.deviceStackSize, offset := 0 }
          activationSpace := some ws.activationsSize } := by
  unfold GraphWorkspace.BuildGraphs
  rw [h]
  simp

/-- C10: every lookup accessor — `IsModelRegistered`, `IsGraphAvailable`,
`GetGraph`, `DeviceBindingsByName` — leaves the workspace state unchanged,
in every state, including on the not-found error paths. -/
theorem spec_c10 (ws : GraphWorkspace) (name : String) (batchSize : Nat) :
    (ws.IsModelRegistered name).2 = ws ∧
    (ws.IsGraphAvailable name batchSize).2 = ws ∧
    (ws.GetGraph name batchSize).2 = ws ∧
    (ws.DeviceBindingsByName name).2 = ws := by
  refine ⟨rfl, rfl, ?_, ?_⟩
  · unfold GraphWorkspace.GetGraph
    cases mapFind (MakeKey name batchSize) ws.graphExecutors <;> rfl
  · unfold GraphWorkspace.DeviceBindingsByName
    cases mapFind name ws.deviceBindings <;> rfl

/-- C2: the two not-found conditions act independently: whenever no
executor is cached for `(name, batch_size)`, `GetGraph` returns a
recoverable `RecoverableError` value (not a `FatalError`) with the
workspace unchanged, and whenever no bindings are cached for `name`,
`DeviceBindingsByName` does the same — in every state, so the caller can
reject the single request and keep using the workspace. -/
theorem spec_c2 (ws : GraphWorkspace) (name : String) (batchSize : Nat) :
    (mapFind (MakeKey name batchSize) ws.graphExecutors = none →
      ws.GetGraph name batchSize =
        (Except.error (RecoverableError.noGraphExecutor name), ws)) ∧
    (mapFind name ws.deviceBindings = none →
      ws.DeviceBindingsByName name =
        (Except.error (RecoverableError.noDeviceBindings name), ws)) := by
  constructor
  · intro h1
    unfold GraphWorkspace.GetGraph
    rw [h1]
  · intro h2
    unfold GraphWorkspace.DeviceBindingsByName
    rw [h2]

/-- C2 witness: after building `wsA` (model `"A"` registered at batch 4
only), `GetGraph("A", 8)` misses even though the bindings for `"A"` are
cached, and returns the recoverable error unchanged; `DeviceBindingsByName`
on the unknown name `"Z"` does the same. -/
theorem spec_c2_witness :
    wsA.BuildGraphs.GetGraph "A" 8 =
      (Except.error (RecoverableError.noGraphExecutor "A"), wsA.BuildGraphs) ∧
    wsA.BuildGraphs.DeviceBindingsByName "Z" =
      (Except.error (RecoverableError.noDeviceBindings "Z"), wsA.BuildGraphs) :=
  ⟨(spec_c2 wsA.BuildGraphs "A" 8).1 (by decide),
    (spec_c2 wsA.BuildGraphs "Z" 1).2 (by decide)⟩

/-- C8: `BuildGraphs` on a workspace with no registered models is a
no-op: it returns the state unchanged (in particular neither the device
memory stack nor the activation allocator is created) and raises no
error. -/
theorem spec_c8 (ws : GraphWorkspace) (h : ws.models = []) : ws.BuildGraphs = ws := by
  have hml : ws.models.isEmpty = true := by
    rw [h]
    rfl
  simp [GraphWorkspace.BuildGraphs, hml]

/-- C8 witness: `BuildGraphs` on the initial workspace. -/
theorem spec_c8_witness : GraphWorkspace.init.BuildGraphs = GraphWorkspace.init :=
  spec_c8 GraphWorkspace.init rfl

/-- C7: a batch size strictly above the model's declared maximum makes
`RegisterModel` fail fatally in every workspace state, with the workspace
unchanged — the batch size is never clamped and the model is never
registered. -/
theorem spec_c7 (ws : GraphWorkspace) (name : String) (model : Model) (batchSize : Nat)
    (h : model.GetMaxBatchSize < batchSize) :
    ∃ e, ws.RegisterModel name model batchSize = (some e, ws) := by
  unfold GraphWorkspace.RegisterModel
  split_ifs with h1 h2
  · exact ⟨_, rfl⟩
  · exact absurd h2 (Nat.not_le.mpr h)
  · exact ⟨_, rfl⟩

/-- C7 witness: registering `modelA` (max batch 8) at batch size 9. -/
theorem spec_c7_witness :
    ∃ e, GraphWorkspace.init.RegisterModel "A" modelA 9 = (some e, GraphWorkspace.init) :=
  spec_c7 GraphWorkspace.init "A" modelA 9 (by decide)

/-- C6: registering an already-registered `(name, batch_size)` key fails
fatally, and every fatal `RegisterModel` failure is raised before any
mutation: whenever the call reports a fatal error, the returned workspace
state (sizing maxima and all maps) is exactly the incoming one. -/
theorem spec_c6 (ws : GraphWorkspace) (name : String) (model : Model) (batchSize : Nat) :
    ((mapFind (MakeKey name batchSize) ws.modelsAndBatchSize).isSome = true →
      ∃ e, (ws.RegisterModel name model batchSize).1 = some e) ∧
    ((ws.RegisterModel name model batchSize).1.isSome = true →
      (ws.RegisterModel name model batchSize).2 = ws) := by
  unfold GraphWorkspace.RegisterModel
  split_ifs with h1 h2
  · exact ⟨fun _ => ⟨_, rfl⟩, fun _ => rfl⟩
  · by_cases h3 : (mapFind (MakeKey name batchSize) ws.modelsAndBatchSize).isSome = true
    · rw [if_pos h3]
      exact ⟨fun _ => ⟨_, rfl⟩, fun _ => rfl⟩
    · rw [if_neg h3]
      exact ⟨fun hc => absurd hc h3, fun hc => by simp at hc⟩
  · exact ⟨fun _ => ⟨_, rfl⟩, fun _ => rfl⟩

/-- C6 witness: re-registering `("A", 4)` on `wsA` fails fatally. -/
theorem spec_c6_witness : ∃ e, (wsA.RegisterModel "A" modelA 4).1 = some e :=
  (spec_c6 wsA "A" modelA 4).1 (by decide)

/-- C9 counterexample: the claim that re-registering an already
registered *name* always fails is refuted by the code: with `"A"`
registered at batch size 4, registering `"A"` again at batch size 8
succeeds (no fatal error) and adds the key `("A", 8)`. -/
theorem spec_c9_counterexample :
    (mapFind "A" wsA.models).isSome = true ∧
    (wsA.RegisterModel "A" modelA 8).1 = none ∧
    (mapFind (MakeKey "A" 8)
        (wsA.RegisterModel "A" modelA 8).2.modelsAndBatchSize).isSome = true := by
  exact ⟨by decide, by decide, by decide⟩

/-- C9 amended: a registered configuration is identified by the composite
`(name, batch size)` key, not by name alone: re-registering the same name
at the *same* batch size always fails fatally, while the duplicate-name
check alone does not reject a different batch size. -/
theorem spec_c9_amended (ws : GraphWorkspace) (name : String) (model : Model)
    (batchSize : Nat)
    (h : (mapFind (MakeKey name batchSize) ws.modelsAndBatchSize).isSome = true) :
    ∃ e, (ws.RegisterModel name model batchSize).1 = some e := by
  unfold GraphWorkspace.RegisterModel
  split_ifs with h1 h2
  · exact ⟨_, rfl⟩
  · rw [if_pos h]
    exact ⟨_, rfl⟩
  · exact ⟨_, rfl⟩

/-- C9 amended witness: re-registering `("A", 4)` on `wsA`. -/
theorem spec_c9_amended_witness : ∃ e, (wsA.RegisterModel "A" modelB 4).1 = some e :=
  spec_c9_amended wsA "A" modelB 4 (by decide)

/-- C3 counterexample: the claim that registration after `BuildGraphs`
always fails "regardless of how many models (including zero) were
registered" is refuted by the code: `BuildGraphs` on a workspace with
zero registered models returns early without allocating, so a subsequent
`RegisterModel` succeeds and registers the model. -/
theorem spec_c3_counterexample :
    (GraphWorkspace.init.BuildGraphs.RegisterModel "B" modelB 1).1 = none ∧
    (mapFind (MakeKey "B" 1)
        (GraphWorkspace.init.BuildGraphs.RegisterModel "B" modelB 1).2.modelsAndBatchSize).isSome
      = true := by
  exact ⟨by decide, by decide⟩

/-- C3 amended: after `BuildGraphs` on a workspace with at least one
registered model (so the device allocations exist), every subsequent
`RegisterModel` call — any name, model, batch size — fails fatally with
the workspace unchanged. -/
theorem spec_c3_amended (ws : GraphWorkspace) (h : ws.models ≠ []) (name : String)
    (model : Model) (batchSize : Nat) :
    ws.BuildGraphs.RegisterModel name model batchSize =
      (some FatalError.registrationAfterGraphCreation, ws.BuildGraphs) := by
  have hml : ws.models.isEmpty = false := by
    cases hmodels : ws.models with
    | nil => exact absurd hmodels h
    | cons a l => rfl
  have hact : ws.BuildGraphs.activationSpace = some ws.activationsSize := by
    rw [buildGraphs_of_ne_nil hml]
    obtain ⟨-, -, -, -, e5⟩ := foldl_buildOne_frame ws.modelsAndBatchSize
      { ws with
        bindingsStack := some { capacity := ws.deviceStackSize, offset := 0 }
        activationSpace := some ws.activationsSize }
    rw [e5]
  have hcond :
      (ws.BuildGraphs.bindingsStack.isSome || ws.BuildGraphs.activationSpace.isSome) = true := by
    rw [hact]
    simp
  unfold GraphWorkspace.RegisterModel
  rw [if_pos hcond]

/-- C3 amended witness: building `wsA` (one registered model) and then
attempting to register `modelB`. -/
theorem spec_c3_amended_witness :
    wsA.BuildGraphs.RegisterModel "B" modelB 1 =
      (some FatalError.registrationAfterGraphCreation, wsA.BuildGraphs) :=
  spec_c3_amended wsA (by decide) "B" modelB 1

/-- C4: in every reachable registration-phase state, the binding-stack
capacity is the maximum over all registered entries of the model's
binding requirement (binding memory plus one alignment pad per slot,
aligned up to 128 KiB), the activation capacity is the maximum over all
registered entries of the aligned activation requirement — maxima, never
sums — and one further `RegisterModel` call never decreases either. -/
theorem spec_c4 (ws : GraphWorkspace) (h : Reachable ws) (name : String) (model : Model)
    (batchSize : Nat) :
    (ws.deviceStackSize =
        listMaxN (ws.modelsAndBatchSize.map fun p => bindingsRequirement p.2) ∧
      ws.activationsSize =
        listMaxN (ws.modelsAndBatchSize.map fun p => activationsRequirement p.2)) ∧
    (ws.deviceStackSize ≤ (ws.RegisterModel name model batchSize).2.deviceStackSize ∧
      ws.activationsSize ≤ (ws.RegisterModel name model batchSize).2.activationsSize) :=
  ⟨reachable_sizes h, register_monotone ws name model batchSize⟩

/-- C4 witness: instantiated on `wsA` with a further registration. -/
theorem spec_c4_witness :
    (wsA.deviceStackSize =
        listMaxN (wsA.modelsAndBatchSize.map fun p => bindingsRequirement p.2) ∧
      wsA.activationsSize =
        listMaxN (wsA.modelsAndBatchSize.map fun p => activationsRequirement p.2)) ∧
    (wsA.deviceStackSize ≤ (wsA.RegisterModel "B" modelB 1).2.deviceStackSize ∧
      wsA.activationsSize ≤ (wsA.RegisterModel "B" modelB 1).2.activationsSize) :=
  spec_c4 wsA (Reachable.register GraphWorkspace.init "A" modelA 4 wsA Reachable.init rfl)
    "B" modelB 1

lemma buildGraphs_executors_isSome {ws : GraphWorkspace} (hml : ws.models.isEmpty = false)
    (hge : ws.graphExecutors = []) (k : ModelKey) :
    (mapFind k ws.BuildGraphs.graphExecutors).isSome ↔
      k ∈ ws.modelsAndBatchSize.map Prod.fst := by
  rw [buildGraphs_of_ne_nil hml, foldl_graphExecutors_isSome]
  have hacc :
      ({ ws with
        bindingsStack := some { capacity := ws.deviceStackSize, offset := 0 }
        activationSpace := some ws.activationsSize } : GraphWorkspace).graphExecutors
        = ws.graphExecutors := rfl
  rw [hacc, hge]
  simp [mapFind]

lemma models_isEmpty_false {ws : GraphWorkspace}
    (hinv : ∀ p ∈ ws.modelsAndBatchSize, (mapFind p.1.1 ws.models).isSome)
    {p : ModelKey × Model} (hp : p ∈ ws.modelsAndBatchSize) :
    ws.models.isEmpty = false := by
  cases hmodels : ws.models with
  | nil =>
    exfalso
    have hsome := hinv p hp
    rw [hmodels] at hsome
    simp [mapFind] at hsome
  | cons a l => rfl

/-- C1: in every reachable registration-phase workspace, no graph
executor exists before `BuildGraphs`; after `BuildGraphs`,
`IsGraphAvailable(name, B)` holds exactly for the registered
`(name, B)` keys, and for each such key `GetGraph` returns the cached
executor (with the workspace unchanged). -/
theorem spec_c1 (ws : GraphWorkspace) (h : Reachable ws) (name : String) (batchSize : Nat) :
    mapFind (MakeKey name batchSize) ws.graphExecutors = none ∧
    ((ws.BuildGraphs.IsGraphAvailable name batchSize).1 = true ↔
      (mapFind (MakeKey name batchSize) ws.modelsAndBatchSize).isSome = true) ∧
    ((mapFind (MakeKey name batchSize) ws.modelsAndBatchSize).isSome = true →
      ∃ g, mapFind (MakeKey name batchSize) ws.BuildGraphs.graphExecutors = some g ∧
        ws.BuildGraphs.GetGraph name batchSize = (Except.ok g, ws.BuildGraphs)) := by
  obtain ⟨hbs, has, hdb, hg, hge, hinv⟩ := reachable_state h
  have hkey : (mapFind (MakeKey name batchSize) ws.BuildGraphs.graphExecutors).isSome = true ↔
      (mapFind (MakeKey name batchSize) ws.modelsAndBatchSize).isSome = true := by
    by_cases hml : ws.models.isEmpty = true
    · have hb : ws.BuildGraphs = ws := by simp [GraphWorkspace.BuildGraphs, hml]
      rw [hb, hge]
      constructor
      · intro hc
        simp [mapFind] at hc
      · intro hc
        rw [mapFind_isSome_iff] at hc
        obtain ⟨p, hp, -⟩ := List.mem_map.mp hc
        rw [models_isEmpty_false hinv hp] at hml
        cases hml
    · have hml' : ws.models.isEmpty = false := by
        cases hb2 : ws.models.isEmpty
        · rfl
        · exact absurd hb2 hml
      rw [buildGraphs_executors_isSome hml' hge, mapFind_isSome_iff]
  refine ⟨by rw [hge]; rfl, hkey, ?_⟩
  intro hsome
  obtain ⟨g, hgfind⟩ := Option.isSome_iff_exists.mp (hkey.mpr hsome)
  refine ⟨g, hgfind, ?_⟩
  unfold GraphWorkspace.GetGraph
  rw [hgfind]

/-- C1 witness: `wsA` (model `"A"` at batch 4) built; the key `("A", 4)`
serves a cached executor. -/
theorem spec_c1_witness :
    ∃ g, mapFind (MakeKey "A" 4) wsA.BuildGraphs.graphExecutors = some g ∧
      wsA.BuildGraphs.GetGraph "A" 4 = (Except.ok g, wsA.BuildGraphs) :=
  (spec_c1 wsA (Reachable.register GraphWorkspace.init "A" modelA 4 wsA Reachable.init rfl)
    "A" 4).2.2 (by decide)

/-- C5: for a model name registered (as the same model `m`) at two
distinct batch sizes, `BuildGraphs` allocates the device bindings exactly
once for that name — from a freshly reset stack, with one pointer per
binding slot sized by the model's *maximum* batch size — and
`DeviceBindingsByName(name)` afterwards returns that one shared pointer
sequence (for every caller, whichever batch-size variant it serves), with
the workspace unchanged. -/
theorem spec_c5 (ws : GraphWorkspace) (h : Reachable ws) (n : String) (m : Model)
    (b1 b2 : Nat) (hne : b1 ≠ b2)
    (h1 : MakeKey n b1 ∈ ws.modelsAndBatchSize.map Prod.fst)
    (h2 : MakeKey n b2 ∈ ws.modelsAndBatchSize.map Prod.fst)
    (hm : ∀ p ∈ ws.modelsAndBatchSize, p.1.1 = n → p.2 = m) :
    ∃ bindings,
      mapFind n ws.BuildGraphs.deviceBindings = some bindings ∧
      bindings =
        (allocBindings { capacity := ws.deviceStackSize, offset := 0 } m.GetMaxBatchSize
          m.bindingBytesPerBatchItem).1 ∧
      ws.BuildGraphs.DeviceBindingsByName n = (Except.ok bindings, ws.BuildGraphs) := by
  obtain ⟨hbs, has, hdb, hg, hge, hinv⟩ := reachable_state h
  obtain ⟨p, hp, hpk⟩ := List.mem_map.mp h1
  have hml : ws.models.isEmpty = false := models_isEmpty_false hinv hp
  rw [buildGraphs_of_ne_nil hml]
  have hmem : n ∈ ws.modelsAndBatchSize.map fun q => q.1.1 :=
    List.mem_map.mpr ⟨p, hp, by rw [hpk]; rfl⟩
  have hfind :
      mapFind n
          (ws.modelsAndBatchSize.foldl BuildOne
            { ws with
              bindingsStack := some { capacity := ws.deviceStackSize, offset := 0 }
              activationSpace := some ws.activationsSize }).deviceBindings =
        some (allocBindings { capacity := ws.deviceStackSize, offset := 0 } m.GetMaxBatchSize
          m.bindingBytesPerBatchItem).1 := by
    apply foldl_deviceBindings rfl hm
    right
    refine ⟨?_, hmem⟩
    show mapFind n ws.deviceBindings = none
    rw [hdb]
    rfl
  refine ⟨_, hfind, rfl, ?_⟩
  unfold GraphWorkspace.DeviceBindingsByName
  rw [hfind]

/-- C5 witness: `wsA2` registers `"A"` at batch sizes 4 and 8; after the
build the shared binding sequence for `"A"` is served for both. -/
theorem spec_c5_witness :
    ∃ bindings,
      mapFind "A" wsA2.BuildGraphs.deviceBindings = some bindings ∧
      bindings =
        (allocBindings { capacity := wsA2.deviceStackSize, offset := 0 }
          modelA2.GetMaxBatchSize modelA2.bindingBytesPerBatchItem).1 ∧
      wsA2.BuildGraphs.DeviceBindingsByName "A" = (Except.ok bindings, wsA2.BuildGraphs) :=
  spec_c5 wsA2
    (Reachable.register wsA "A" modelA 8 wsA2
      (Reachable.register GraphWorkspace.init "A" modelA 4 wsA Reachable.init rfl) rfl)
    "A" modelA2 4 8 (by decide) (by decide) (by decide) (by decide)
